import Mathlib

/-!
Shallow embedding of `src/backend/app/tools/executor.py`: the circuit
breaker, the TTL cache, and the `ToolExecutor.execute` pipeline.
Timestamps (`datetime`) are modelled as `Int` seconds; `timedelta.
total_seconds()` comparisons become `Int` comparisons.  The async unit of
work `fn` is modelled by the outcome it would produce on each attempt
index; metrics/logging observers are no-ops in the source interfaces and
are omitted.
-/

/-- Circuit breaker state (`BreakerState` in the source). -/
inductive BreakerState where
  | Closed
  | Open
  | HalfOpen
deriving DecidableEq, Repr

/-- `CircuitBreaker` dataclass: per-tool failure-window state machine. -/
structure CircuitBreaker where
  tool_name : String
  failure_threshold : Nat
  window_seconds : Int
  half_open_seconds : Int
  state : BreakerState := BreakerState.Closed
  failure_times : List Int := []
  opened_at : Option Int := none
deriving DecidableEq, Repr

namespace CircuitBreaker

/-- `record_success`: success in half-open resets to closed; otherwise no-op. -/
def record_success (b : CircuitBreaker) : CircuitBreaker :=
  if b.state = BreakerState.HalfOpen then
    { b with state := BreakerState.Closed, failure_times := [], opened_at := none }
  else
    b

/-- `record_failure(now)`: prune failures at or before `now - window_seconds`,
append `now`, open when the count reaches the threshold. -/
def record_failure (b : CircuitBreaker) (now : Int) : CircuitBreaker :=
  let cutoff := now - b.window_seconds
  let pruned := b.failure_times.filter (fun t => decide (cutoff < t))
  let ft := pruned ++ [now]
  if b.failure_threshold ≤ ft.length then
    { b with failure_times := ft, state := BreakerState.Open, opened_at := some now }
  else
    { b with failure_times := ft }

/-- `check_and_update_state(now)`: Open transitions to Half-Open once the
cooldown has elapsed.  Returns the updated breaker and the returned state. -/
def check_and_update_state (b : CircuitBreaker) (now : Int) :
    CircuitBreaker × BreakerState :=
  match b.state, b.opened_at with
  | BreakerState.Open, some t =>
      if b.half_open_seconds ≤ now - t then
        ({ b with state := BreakerState.HalfOpen }, BreakerState.HalfOpen)
      else
        (b, BreakerState.Open)
  | _, _ => (b, b.state)

/-- `is_open(now)`: check-and-update, then report whether the state is Open. -/
def is_open (b : CircuitBreaker) (now : Int) : CircuitBreaker × Bool :=
  let r := b.check_and_update_state now
  (r.1, decide (r.2 = BreakerState.Open))

end CircuitBreaker

/-- `CacheEntry`: cached value with its storage time and TTL. -/
structure CacheEntry (T : Type) where
  value : T
  cached_at : Int
  ttl_seconds : Int
deriving DecidableEq, Repr

/-- `CacheEntry.is_fresh(now)`: `(now - cached_at).total_seconds() < ttl_seconds`. -/
def CacheEntry.is_fresh {T : Type} (e : CacheEntry T) (now : Int) : Bool :=
  decide (now - e.cached_at < e.ttl_seconds)

/-- `ToolCache`: in-memory map from key to entry, as an association list
(later `set` for a key shadows older bindings, matching dict assignment). -/
structure ToolCache (T : Type) where
  entries : List (String × CacheEntry T)
deriving DecidableEq, Repr

namespace ToolCache

/-- Dictionary lookup `self._cache.get(key)`. -/
def find {T : Type} (c : ToolCache T) (key : String) : Option (CacheEntry T) :=
  (c.entries.find? (fun p => decide (p.1 = key))).map Prod.snd

/-- `del self._cache[key]`. -/
def erase {T : Type} (c : ToolCache T) (key : String) : ToolCache T :=
  { entries := c.entries.filter (fun p => decide (p.1 ≠ key)) }

/-- `get(key, now)`: fresh hit returns the value; a stale entry is evicted
and the lookup is a miss.  Returns the updated cache and the result. -/
def get {T : Type} (c : ToolCache T) (key : String) (now : Int) :
    ToolCache T × Option T :=
  match c.find key with
  | some e =>
      if e.is_fresh now then (c, some e.value)
      else (c.erase key, none)
  | none => (c, none)

/-- `set(key, value, ttl_seconds, now)`: store with `cached_at = now`. -/
def set {T : Type} (c : ToolCache T) (key : String) (value : T)
    (ttl_seconds : Int) (now : Int) : ToolCache T :=
  { entries := (key, ⟨value, now, ttl_seconds⟩) :: (c.erase key).entries }

end ToolCache

/-- `ToolConfig` dataclass (defaults as in the source). -/
structure ToolConfig where
  soft_timeout_ms : Int
  hard_timeout_ms : Int
  retry_count : Nat
  retry_jitter_min_ms : Int
  retry_jitter_max_ms : Int
  breaker_failure_threshold : Nat := 5
  breaker_window_seconds : Int := 60
  breaker_half_open_seconds : Int := 30
  cache_ttl_seconds : Int := 0
deriving DecidableEq, Repr

/-- `Provenance` (from `backend/app/models/common.py`), with `datetime`
as `Int`. -/
structure Provenance where
  source : String
  ref_id : Option String := none
  source_url : Option String := none
  fetched_at : Int
  cache_hit : Option Bool := none
  response_digest : Option String := none
deriving DecidableEq, Repr

/-- `ToolResult`: value paired with provenance. -/
structure ToolResult (T : Type) where
  value : T
  provenance : Provenance
deriving DecidableEq, Repr

/-- What one invocation of the unit of work `fn` does on a given attempt:
succeed (with the value and the `datetime.now()` observed at success),
exceed the hard timeout (`TimeoutError`, with the `datetime.now()` at which
the failure is recorded), raise some other exception, or raise
`ToolCancelledError`. -/
inductive AttemptOutcome (T : Type) where
  | success (value : T) (fetched_at : Int)
  | timeout (failed_at : Int)
  | failure (failed_at : Int)
  | cancelled
deriving DecidableEq, Repr

/-- Which kind of exception `last_error` holds at loop exit. -/
inductive LastErrorKind where
  | timeoutKind
  | otherKind
deriving DecidableEq, Repr

/-- The four typed errors `execute` can raise. -/
inductive ExecError where
  | Timeout
  | CircuitOpen
  | Cancelled
  | ExecutionFailed
deriving DecidableEq, Repr

/-- The retry loop of `ToolExecutor.execute` (`for attempt in
range(config.retry_count + 1)`), with `fuel` the number of attempts left.
On exhaustion the raised error is classified by `isinstance(last_error,
asyncio.TimeoutError)`.  The cancel token is read-only and not set here,
so the in-loop `throw_if_cancelled` calls are no-ops; a cancellation
raised from within `fn` is the `cancelled` outcome. -/
def runAttempts {T : Type} (fn : Nat → AttemptOutcome T) (cache_key : String)
    (ttl now : Int) :
    Nat → Nat → Option LastErrorKind → CircuitBreaker → ToolCache (T × Int) →
    ToolCache (T × Int) × CircuitBreaker × Except ExecError (ToolResult T)
  | _, 0, lastErr, b, c =>
      (c, b, Except.error (match lastErr with
        | some LastErrorKind.timeoutKind => ExecError.Timeout
        | _ => ExecError.ExecutionFailed))
  | attempt, fuel+1, _, b, c =>
      match fn attempt with
      | AttemptOutcome.success v ft =>
          let b2 := b.record_success
          let c2 := if 0 < ttl then c.set cache_key (v, ft) ttl now else c
          (c2, b2, Except.ok
            { value := v
              provenance := { source := "tool", fetched_at := ft, cache_hit := some false } })
      | AttemptOutcome.timeout failedAt =>
          runAttempts fn cache_key ttl now (attempt + 1) fuel
            (some LastErrorKind.timeoutKind) (b.record_failure failedAt) c
      | AttemptOutcome.failure failedAt =>
          runAttempts fn cache_key ttl now (attempt + 1) fuel
            (some LastErrorKind.otherKind) (b.record_failure failedAt) c
      | AttemptOutcome.cancelled =>
          (c, b, Except.error ExecError.Cancelled)

/-- `ToolExecutor.execute`, as a pure function.  `cancelled` is the value of
the caller's `CancelToken.cancelled` flag (read-only here); `now` is the
single `datetime.now()` taken before the cache check; `cache_key` stands
for `cache.make_key(ctx.tool_name, payload)`.  The cache stores the
`(result, fetched_at)` pairs the source stores.  Returns the updated cache,
the updated breaker, and the result or typed error. -/
def ToolExecutor.execute {T : Type} (config : ToolConfig)
    (fn : Nat → AttemptOutcome T) (cancelled : Bool)
    (cache : ToolCache (T × Int)) (breaker : CircuitBreaker)
    (cache_key : String) (now : Int) (cache_ttl_seconds : Int := 0) :
    ToolCache (T × Int) × CircuitBreaker × Except ExecError (ToolResult T) :=
  if cancelled then (cache, breaker, Except.error ExecError.Cancelled)
  else
    let ttl := if cache_ttl_seconds = 0 then config.cache_ttl_seconds else cache_ttl_seconds
    if 0 < ttl then
      let g := cache.get cache_key now
      match g.2 with
      | some (v, cached_at) =>
          (g.1, breaker, Except.ok
            { value := v
              provenance :=
                { source := "tool", fetched_at := cached_at, cache_hit := some true } })
      | none =>
          let r := breaker.is_open now
          if r.2 then (g.1, r.1, Except.error ExecError.CircuitOpen)
          else runAttempts fn cache_key ttl now 0 (config.retry_count + 1) none r.1 g.1
    else
      let r := breaker.is_open now
      if r.2 then (cache, r.1, Except.error ExecError.CircuitOpen)
      else runAttempts fn cache_key ttl now 0 (config.retry_count + 1) none r.1 cache

/-- Time of a failed attempt (timeout or other exception), if the attempt
failed in a retryable way. -/
def AttemptOutcome.failTime {T : Type} : AttemptOutcome T → Option Int
  | AttemptOutcome.timeout t => some t
  | AttemptOutcome.failure t => some t
  | _ => none

/-- Whether the attempt outcome is a hard-timeout (`TimeoutError`). -/
def AttemptOutcome.isTimeout {T : Type} : AttemptOutcome T → Bool
  | AttemptOutcome.timeout _ => true
  | _ => false

/-- Fold `record_failure` over a list of failure timestamps. -/
def applyFailures (b : CircuitBreaker) (ts : List Int) : CircuitBreaker :=
  ts.foldl CircuitBreaker.record_failure b

/-- The pure effect of one `record_failure` on the failure list. -/
def pruneAppend (W : Int) (ft : List Int) (t : Int) : List Int :=
  ft.filter (fun a => decide (t - W < a)) ++ [t]

/-- Failure timestamps recorded by the first `k` attempts starting at
attempt index `attempt` (assuming those attempts fail retryably). -/
def failTimesFrom {T : Type} (fn : Nat → AttemptOutcome T) : Nat → Nat → List Int
  | _, 0 => []
  | attempt, k + 1 =>
      ((fn attempt).failTime).getD 0 :: failTimesFrom fn (attempt + 1) k

/-- The first `k` attempts starting at `attempt` all fail retryably
(timeout or non-cancellation exception). -/
def failsBelow {T : Type} (fn : Nat → AttemptOutcome T) : Nat → Nat → Prop
  | _, 0 => True
  | attempt, k + 1 =>
      ((fn attempt).failTime).isSome = true ∧ failsBelow fn (attempt + 1) k

theorem record_failure_failure_times (b : CircuitBreaker) (t : Int) :
    (b.record_failure t).failure_times = pruneAppend b.window_seconds b.failure_times t := by
  dsimp only [CircuitBreaker.record_failure, pruneAppend]
  split <;> rfl

theorem record_failure_fields (b : CircuitBreaker) (t : Int) :
    (b.record_failure t).window_seconds = b.window_seconds
    ∧ (b.record_failure t).failure_threshold = b.failure_threshold
    ∧ (b.record_failure t).tool_name = b.tool_name
    ∧ (b.record_failure t).half_open_seconds = b.half_open_seconds := by
  dsimp only [CircuitBreaker.record_failure]
  split <;> exact ⟨rfl, rfl, rfl, rfl⟩

theorem check_and_update_fields (b : CircuitBreaker) (now : Int) :
    (b.check_and_update_state now).1.failure_times = b.failure_times
    ∧ (b.check_and_update_state now).1.window_seconds = b.window_seconds
    ∧ (b.check_and_update_state now).1.failure_threshold = b.failure_threshold
    ∧ (b.check_and_update_state now).1.opened_at = b.opened_at := by
  unfold CircuitBreaker.check_and_update_state
  rcases hb : b.state <;> rcases ho : b.opened_at <;> simp [hb, ho] <;>
    split <;> simp [ho]

theorem find?_filter_ne {T : Type} (l : List (String × CacheEntry T)) (key : String) :
    (l.filter (fun p => decide (p.1 ≠ key))).find? (fun p => decide (p.1 = key)) = none := by
  induction l with
  | nil => rfl
  | cons p l ih =>
    by_cases h : p.1 = key <;>
      simp [List.filter_cons, h, List.find?_cons, ih]

/-- C8: ToolCache TTL semantics.  After `set(key, value, T, t0)`, `get(key, t)`
returns the stored value for every `t` with `t - t0 < T`, and returns `none`
for every `t` with `t - t0 ≥ T`, deleting the stale entry from the map on
that lookup; `get` on a never-set key returns `none`. -/
theorem C8_cache_ttl {T : Type} (c : ToolCache T) (key : String) (v : T)
    (ttl t0 t : Int) :
    (((c.set key v ttl t0).get key t).2 = if t - t0 < ttl then some v else none)
    ∧ (ttl ≤ t - t0 → ((c.set key v ttl t0).get key t).1.find key = none)
    ∧ (∀ c0 : ToolCache T, (∀ p ∈ c0.entries, p.1 ≠ key) → (c0.get key t).2 = none) := by
  refine ⟨?_, ?_, ?_⟩
  · simp only [ToolCache.get, ToolCache.set, ToolCache.find, CacheEntry.is_fresh,
      List.find?_cons, decide_eq_true_eq]
    by_cases h : t - t0 < ttl <;> simp [h]
  · intro hstale
    have hns : ¬ t - t0 < ttl := not_lt.mpr hstale
    simp only [ToolCache.get, ToolCache.set, ToolCache.find, ToolCache.erase,
      CacheEntry.is_fresh, List.find?_cons, decide_eq_true_eq]
    simp [hns, List.filter_cons, find?_filter_ne]
  · intro c0 hnone
    have hfind : c0.find key = none := by
      unfold ToolCache.find
      rw [List.find?_eq_none.mpr]
      · rfl
      · intro p hp
        simpa using hnone p hp
    unfold ToolCache.get
    rw [hfind]

/-- Witness for C8 at concrete inputs: a value set at time 0 with TTL 10
is returned at time 5, is absent at time 12 (entry deleted), and a lookup
in a cache that never held the key is absent. -/
theorem C8_cache_ttl_witness :
    (((ToolCache.set (T := Nat) ⟨[]⟩ "k" 7 10 0).get "k" 5).2 = some 7)
    ∧ (((ToolCache.set (T := Nat) ⟨[]⟩ "k" 7 10 0).get "k" 12).2 = none)
    ∧ (((ToolCache.set (T := Nat) ⟨[]⟩ "k" 7 10 0).get "k" 12).1.find "k" = none)
    ∧ ((ToolCache.get (T := Nat) ⟨[]⟩ "k" 12).2 = none) := by
  have h5 := C8_cache_ttl (T := Nat) ⟨[]⟩ "k" 7 10 0 5
  have h12 := C8_cache_ttl (T := Nat) ⟨[]⟩ "k" 7 10 0 12
  refine ⟨?_, ?_, ?_, ?_⟩
  · simpa using h5.1
  · simpa using h12.1
  · exact h12.2.1 (by decide)
  · exact h12.2.2 ⟨[]⟩ (by simp)

/-- C10: with the per-call `cache_ttl_seconds` argument equal to 0 (its
default), the effective TTL falls back to `config.cache_ttl_seconds`
(Python `cache_ttl_seconds or config.cache_ttl_seconds`); when the config
TTL is positive, the lookup is still performed (a fresh hit is served) and
a fresh success still populates the cache, so passing 0 does not disable
caching per call. -/
theorem C10_ttl_fallback {T : Type} (config : ToolConfig)
    (fn : Nat → AttemptOutcome T) (cz : Bool) (cache : ToolCache (T × Int))
    (breaker : CircuitBreaker) (key : String) (now : Int) :
    (ToolExecutor.execute config fn cz cache breaker key now 0
      = ToolExecutor.execute config fn cz cache breaker key now config.cache_ttl_seconds)
    ∧ (∀ v t0, 0 < config.cache_ttl_seconds →
        (cache.get key now).2 = some (v, t0) →
        ToolExecutor.execute config fn false cache breaker key now 0
          = ((cache.get key now).1, breaker, Except.ok
              { value := v
                provenance :=
                  { source := "tool", fetched_at := t0, cache_hit := some true } }))
    ∧ (∀ v ft, 0 < config.cache_ttl_seconds →
        (cache.get key now).2 = none → (breaker.is_open now).2 = false →
        fn 0 = AttemptOutcome.success v ft →
        (ToolExecutor.execute config fn false cache breaker key now 0).1
          = ((cache.get key now).1).set key (v, ft) config.cache_ttl_seconds now) := by
  refine ⟨?_, ?_, ?_⟩
  · simp [ToolExecutor.execute]
  · intro v t0 hpos hhit
    simp [ToolExecutor.execute, hhit, hpos]
  · intro v ft hpos hmiss hopen hfn
    simp [ToolExecutor.execute, hmiss, hpos, hopen, runAttempts, hfn]

/-- Witness for C10 at concrete inputs: with config TTL 100 and per-call
argument 0, the call equals the call with argument 100, a fresh cached
entry is served, and a fresh success populates the cache. -/
theorem C10_ttl_fallback_witness :
    (ToolExecutor.execute (T := Nat) ⟨0, 4000, 1, 200, 500, 5, 60, 30, 100⟩
        (fun _ => AttemptOutcome.success 9 11) false ⟨[]⟩
        ⟨"t", 5, 60, 30, BreakerState.Closed, [], none⟩ "k" 10 0
      = ToolExecutor.execute ⟨0, 4000, 1, 200, 500, 5, 60, 30, 100⟩
        (fun _ => AttemptOutcome.success 9 11) false ⟨[]⟩
        ⟨"t", 5, 60, 30, BreakerState.Closed, [], none⟩ "k" 10 100)
    ∧ (ToolExecutor.execute (T := Nat) ⟨0, 4000, 1, 200, 500, 5, 60, 30, 100⟩
        (fun _ => AttemptOutcome.success 9 11) false ⟨[("k", ⟨(7, 3), 5, 100⟩)]⟩
        ⟨"t", 5, 60, 30, BreakerState.Closed, [], none⟩ "k" 10 0
      = (⟨[("k", ⟨(7, 3), 5, 100⟩)]⟩, ⟨"t", 5, 60, 30, BreakerState.Closed, [], none⟩,
          Except.ok ⟨7, { source := "tool", fetched_at := 3, cache_hit := some true }⟩))
    ∧ ((ToolExecutor.execute (T := Nat) ⟨0, 4000, 1, 200, 500, 5, 60, 30, 100⟩
        (fun _ => AttemptOutcome.success 9 11) false ⟨[]⟩
        ⟨"t", 5, 60, 30, BreakerState.Closed, [], none⟩ "k" 10 0).1
      = ToolCache.set ⟨[]⟩ "k" (9, 11) 100 10) := by
  have h1 := C10_ttl_fallback (T := Nat) ⟨0, 4000, 1, 200, 500, 5, 60, 30, 100⟩
    (fun _ => AttemptOutcome.success 9 11) false ⟨[]⟩
    ⟨"t", 5, 60, 30, BreakerState.Closed, [], none⟩ "k" 10
  have h2 := C10_ttl_fallback (T := Nat) ⟨0, 4000, 1, 200, 500, 5, 60, 30, 100⟩
    (fun _ => AttemptOutcome.success 9 11) false ⟨[("k", ⟨(7, 3), 5, 100⟩)]⟩
    ⟨"t", 5, 60, 30, BreakerState.Closed, [], none⟩ "k" 10
  refine ⟨h1.1, ?_, ?_⟩
  · exact (h2.2.1 7 3 (by decide) (by decide)).trans (by rfl)
  · exact (h1.2.2 9 11 (by decide) (by decide) (by decide) rfl).trans (by rfl)

/-- C6: `is_open(now)` is true while Open with `now - opened_at <
half_open_seconds` and false once the cooldown has elapsed (the breaker
then being Half-Open; check-and-update is the only path into Half-Open:
neither `record_success` nor `record_failure` enters it); `record_success`
while Half-Open clears the failure timestamps and closes the breaker, and
`record_success` while Closed changes nothing. -/
theorem C6_halfopen_transitions (b : CircuitBreaker) (now t tf : Int) :
    (b.state = BreakerState.Open → b.opened_at = some t →
        now - t < b.half_open_seconds →
        (b.is_open now).2 = true ∧ (b.is_open now).1 = b)
    ∧ (b.state = BreakerState.Open → b.opened_at = some t →
        b.half_open_seconds ≤ now - t →
        (b.is_open now).2 = false ∧ (b.is_open now).1.state = BreakerState.HalfOpen)
    ∧ (b.state = BreakerState.HalfOpen →
        b.record_success
          = { b with
              state := BreakerState.Closed
              failure_times := []
              opened_at := none })
    ∧ (b.state = BreakerState.Closed → b.record_success = b)
    ∧ (b.state ≠ BreakerState.HalfOpen →
        b.record_success.state ≠ BreakerState.HalfOpen
        ∧ (b.record_failure tf).state ≠ BreakerState.HalfOpen) := by
  refine ⟨?_, ?_, ?_, ?_, ?_⟩
  · intro hb ho hlt
    simp [CircuitBreaker.is_open, CircuitBreaker.check_and_update_state, hb, ho,
      if_neg (not_le.mpr hlt)]
  · intro hb ho hge
    simp [CircuitBreaker.is_open, CircuitBreaker.check_and_update_state, hb, ho,
      if_pos hge]
  · intro hho
    simp [CircuitBreaker.record_success, hho]
  · intro hcl
    simp [CircuitBreaker.record_success, hcl]
  · intro hne
    constructor
    · unfold CircuitBreaker.record_success
      split <;> simpa using hne
    · dsimp only [CircuitBreaker.record_failure]
      split <;> simpa using hne

/-- Witness for C6 at concrete breakers: open at 10 with cooldown 30 is
still open at 20, half-open at 45; a half-open success closes and clears;
a closed success is a no-op; neither recording enters Half-Open. -/
theorem C6_halfopen_transitions_witness :
    ((CircuitBreaker.is_open ⟨"t", 5, 60, 30, BreakerState.Open, [10], some 10⟩ 20).2 = true)
    ∧ ((CircuitBreaker.is_open ⟨"t", 5, 60, 30, BreakerState.Open, [10], some 10⟩ 45).2 = false)
    ∧ ((CircuitBreaker.is_open
        ⟨"t", 5, 60, 30, BreakerState.Open, [10], some 10⟩ 45).1.state = BreakerState.HalfOpen)
    ∧ (CircuitBreaker.record_success ⟨"t", 5, 60, 30, BreakerState.HalfOpen, [10], some 10⟩
        = ⟨"t", 5, 60, 30, BreakerState.Closed, [], none⟩)
    ∧ (CircuitBreaker.record_success ⟨"t", 5, 60, 30, BreakerState.Closed, [10], none⟩
        = ⟨"t", 5, 60, 30, BreakerState.Closed, [10], none⟩)
    ∧ ((CircuitBreaker.record_failure
        ⟨"t", 5, 60, 30, BreakerState.Closed, [10], none⟩ 99).state ≠ BreakerState.HalfOpen) := by
  have h1 := C6_halfopen_transitions ⟨"t", 5, 60, 30, BreakerState.Open, [10], some 10⟩ 20 10 99
  have h2 := C6_halfopen_transitions ⟨"t", 5, 60, 30, BreakerState.Open, [10], some 10⟩ 45 10 99
  have h3 := C6_halfopen_transitions ⟨"t", 5, 60, 30, BreakerState.HalfOpen, [10], some 10⟩ 0 10 99
  have h4 := C6_halfopen_transitions ⟨"t", 5, 60, 30, BreakerState.Closed, [10], none⟩ 0 10 99
  refine ⟨(h1.1 rfl rfl (by decide)).1, (h2.2.1 rfl rfl (by decide)).1,
    (h2.2.1 rfl rfl (by decide)).2, (h3.2.2.1 rfl).trans (by rfl),
    h4.2.2.2.1 rfl, (h4.2.2.2.2 (by decide)).2⟩

/-- C3 counterexample: a Closed breaker with a failure at time 0 and a
60-second window, checked via `is_open` at time 100, still holds the entry
0 even though 0 is older than `100 - 60`: state checks do not prune
`failure_times`. -/
theorem C3_invariant_counterexample :
    ((0 : Int) ∈ (CircuitBreaker.is_open
        ⟨"t", 5, 60, 30, BreakerState.Closed, [0], none⟩ 100).1.failure_times)
    ∧ ((0 : Int) < 100 - 60) := by decide

/-- C3 amended: the pruning invariant is maintained by `record_failure`,
not by state checks: after `record_failure(now)` (with a positive window)
every entry is newer than `now - window_seconds`, while
`check_and_update_state` and `is_open` leave `failure_times` unchanged. -/
theorem C3_pruning_amended (b : CircuitBreaker) (now : Int)
    (hW : 0 < b.window_seconds) :
    (∀ x ∈ (b.record_failure now).failure_times, now - b.window_seconds < x)
    ∧ (b.check_and_update_state now).1.failure_times = b.failure_times
    ∧ (b.is_open now).1.failure_times = b.failure_times := by
  refine ⟨?_, (check_and_update_fields b now).1, (check_and_update_fields b now).1⟩
  intro x hx
  rw [record_failure_failure_times] at hx
  unfold pruneAppend at hx
  rcases List.mem_append.mp hx with h | h
  · simpa using (List.of_mem_filter h)
  · simp only [List.mem_singleton] at h
    omega

/-- Witness for the amended C3 at a concrete breaker and time. -/
theorem C3_pruning_amended_witness :
    (∀ x ∈ (CircuitBreaker.record_failure
        ⟨"t", 5, 60, 30, BreakerState.Closed, [0, 50], none⟩ 100).failure_times,
      (100 : Int) - 60 < x)
    ∧ ((CircuitBreaker.check_and_update_state
        ⟨"t", 5, 60, 30, BreakerState.Closed, [0, 50], none⟩ 100).1.failure_times = [0, 50])
    ∧ ((CircuitBreaker.is_open
        ⟨"t", 5, 60, 30, BreakerState.Closed, [0, 50], none⟩ 100).1.failure_times = [0, 50]) := by
  have h := C3_pruning_amended ⟨"t", 5, 60, 30, BreakerState.Closed, [0, 50], none⟩ 100 (by decide)
  exact ⟨h.1, h.2.1, h.2.2⟩

/-- C2 counterexample: a Half-Open breaker (threshold 3, window 60) whose
recorded failures 0, 1, 2 have all aged out by time 70: `record_failure 70`
prunes them, leaving a single failure below the threshold, so the breaker
stays Half-Open and `opened_at` is not restarted — contradicting the claim
that a single failed probe always re-opens. -/
theorem C2_halfopen_counterexample :
    ((CircuitBreaker.record_failure
        ⟨"t", 3, 60, 30, BreakerState.HalfOpen, [0, 1, 2], some 2⟩ 70).state
      ≠ BreakerState.Open)
    ∧ ((CircuitBreaker.record_failure
        ⟨"t", 3, 60, 30, BreakerState.HalfOpen, [0, 1, 2], some 2⟩ 70).state
      = BreakerState.HalfOpen)
    ∧ ((CircuitBreaker.record_failure
        ⟨"t", 3, 60, 30, BreakerState.HalfOpen, [0, 1, 2], some 2⟩ 70).opened_at
      = some 2) := by decide

/-- C2 amended: in Half-Open, `record_failure(now)` re-opens the breaker
(state Open, `opened_at = now`) exactly when the failures still inside the
window at `now`, plus the new one, reach the threshold; otherwise the
breaker stays Half-Open with `opened_at` unchanged. -/
theorem C2_halfopen_reopen_amended (b : CircuitBreaker) (now : Int)
    (hs : b.state = BreakerState.HalfOpen) :
    (b.failure_threshold ≤
        (b.failure_times.filter (fun x => decide (now - b.window_seconds < x))).length + 1 →
      (b.record_failure now).state = BreakerState.Open
      ∧ (b.record_failure now).opened_at = some now)
    ∧ ((b.failure_times.filter (fun x => decide (now - b.window_seconds < x))).length + 1
        < b.failure_threshold →
      (b.record_failure now).state = BreakerState.HalfOpen
      ∧ (b.record_failure now).opened_at = b.opened_at) := by
  constructor
  · intro h
    dsimp only [CircuitBreaker.record_failure]
    rw [if_pos (by simpa using h)]
    exact ⟨rfl, rfl⟩
  · intro h
    dsimp only [CircuitBreaker.record_failure]
    rw [if_neg (by simp; omega)]
    exact ⟨hs, rfl⟩

/-- Witness for the amended C2: with threshold 3, failures at 40 and 50
still in window at 60 re-open on a failed probe; failures at 0, 1, 2 all
aged out at 70 leave the breaker Half-Open. -/
theorem C2_halfopen_reopen_amended_witness :
    ((CircuitBreaker.record_failure
        ⟨"t", 3, 60, 30, BreakerState.HalfOpen, [40, 50], some 50⟩ 60).state
      = BreakerState.Open)
    ∧ ((CircuitBreaker.record_failure
        ⟨"t", 3, 60, 30, BreakerState.HalfOpen, [40, 50], some 50⟩ 60).opened_at
      = some 60)
    ∧ ((CircuitBreaker.record_failure
        ⟨"t", 3, 60, 30, BreakerState.HalfOpen, [0, 1, 2], some 2⟩ 70).state
      = BreakerState.HalfOpen)
    ∧ ((CircuitBreaker.record_failure
        ⟨"t", 3, 60, 30, BreakerState.HalfOpen, [0, 1, 2], some 2⟩ 70).opened_at
      = some 2) := by
  have h1 := C2_halfopen_reopen_amended
    ⟨"t", 3, 60, 30, BreakerState.HalfOpen, [40, 50], some 50⟩ 60 rfl
  have h2 := C2_halfopen_reopen_amended
    ⟨"t", 3, 60, 30, BreakerState.HalfOpen, [0, 1, 2], some 2⟩ 70 rfl
  exact ⟨(h1.1 (by decide)).1, (h1.1 (by decide)).2,
    (h2.2 (by decide)).1, (h2.2 (by decide)).2⟩

theorem record_failure_state (b : CircuitBreaker) (t : Int) :
    (b.record_failure t).state
      = (if b.failure_threshold ≤ (pruneAppend b.window_seconds b.failure_times t).length
         then BreakerState.Open else b.state) := by
  dsimp only [CircuitBreaker.record_failure, pruneAppend]
  split <;> simp_all

/-- Folding `record_failure` over timestamps that all stay within the
window of every later call grows `failure_times` without pruning, and the
state is Open exactly when the accumulated count has reached the
threshold. -/
theorem applyFailures_from_closed (N : Nat) (W : Int) :
    ∀ (ts : List Int) (b : CircuitBreaker),
      b.failure_threshold = N → b.window_seconds = W →
      b.state = (if N ≤ b.failure_times.length then BreakerState.Open
                 else BreakerState.Closed) →
      List.Pairwise (fun a x => x - W < a) (b.failure_times ++ ts) →
      (applyFailures b ts).failure_times = b.failure_times ++ ts
      ∧ (applyFailures b ts).state
          = (if N ≤ b.failure_times.length + ts.length then BreakerState.Open
             else BreakerState.Closed) := by
  intro ts
  induction ts with
  | nil =>
    intro b hN hW hst hp
    constructor
    · simp [applyFailures]
    · simpa [applyFailures] using hst
  | cons t rest ih =>
    intro b hN hW hst hp
    have hmem : ∀ a ∈ b.failure_times, t - W < a := by
      intro a ha
      have h3 := (List.pairwise_append.mp hp).2.2
      exact h3 a ha t (List.mem_cons_self t rest)
    have hfilter : b.failure_times.filter (fun a => decide (t - b.window_seconds < a))
        = b.failure_times := by
      rw [hW]
      exact List.filter_eq_self.mpr (fun a ha => decide_eq_true (hmem a ha))
    have hft : (b.record_failure t).failure_times = b.failure_times ++ [t] := by
      rw [record_failure_failure_times]
      unfold pruneAppend
      rw [hfilter]
    have hstate : (b.record_failure t).state
        = (if N ≤ b.failure_times.length + 1 then BreakerState.Open
           else BreakerState.Closed) := by
      rw [record_failure_state]
      unfold pruneAppend
      rw [hfilter, hN]
      by_cases hc : N ≤ b.failure_times.length + 1
      · simp [hc]
      · have hc2 : ¬ N ≤ b.failure_times.length := by omega
        simp [hc, hst, hc2]
    have happ : b.failure_times ++ t :: rest = (b.failure_times ++ [t]) ++ rest := by
      simp
    have ih2 := ih (b.record_failure t)
      (by rw [(record_failure_fields b t).2.1, hN])
      (by rw [(record_failure_fields b t).1, hW])
      (by rw [hstate, hft]; simp)
      (by rw [hft]; rw [happ] at hp; exact hp)
    constructor
    · have : applyFailures b (t :: rest) = applyFailures (b.record_failure t) rest := rfl
      rw [this, ih2.1, hft, happ]
    · have : applyFailures b (t :: rest) = applyFailures (b.record_failure t) rest := rfl
      rw [this, ih2.2, hft]
      have harith : (b.failure_times ++ [t]).length + rest.length
          = b.failure_times.length + (t :: rest).length := by
        simp only [List.length_append, List.length_cons, List.length_nil]
        omega
      rw [harith]

/-- C5: from a fresh Closed breaker with threshold N ≥ 1, N
`record_failure` calls whose timestamps all remain inside the window of
every later call yield state Open, while N−1 such calls leave it Closed;
and timestamps already outside the window at a `record_failure(now)` call
do not count: the call behaves exactly as if they had been removed. -/
theorem C5_threshold (N : Nat) (W hs : Int) (nm : String) (ts : List Int)
    (hN : 1 ≤ N)
    (hp : List.Pairwise (fun a x => x - W < a) ts) :
    ((ts.length = N →
      (applyFailures ⟨nm, N, W, hs, BreakerState.Closed, [], none⟩ ts).state
        = BreakerState.Open)
    ∧ (ts.length = N - 1 →
      (applyFailures ⟨nm, N, W, hs, BreakerState.Closed, [], none⟩ ts).state
        = BreakerState.Closed))
    ∧ (∀ (b : CircuitBreaker) (now : Int),
        b.record_failure now
          = ({ b with failure_times :=
                b.failure_times.filter (fun x => decide (now - b.window_seconds < x)) } :
              CircuitBreaker).record_failure now) := by
  constructor
  · have hbase := applyFailures_from_closed N W ts
      ⟨nm, N, W, hs, BreakerState.Closed, [], none⟩ rfl rfl
      (by simp [show ¬ N ≤ 0 by omega])
      (by simpa using hp)
    constructor
    · intro hlen
      rw [hbase.2]
      simp [hlen]
    · intro hlen
      rw [hbase.2]
      simp only [List.length_nil, Nat.zero_add, hlen]
      rw [if_neg (by omega)]
  · intro b now
    dsimp only [CircuitBreaker.record_failure]
    simp [List.filter_filter]

/-- Witness for C5: threshold 2, window 60; failures at 0 and 1 open the
breaker, a single failure leaves it Closed; and a stale failure at 0 makes
`record_failure 100` behave as on the breaker with it already pruned. -/
theorem C5_threshold_witness :
    ((applyFailures ⟨"t", 2, 60, 30, BreakerState.Closed, [], none⟩ [0, 1]).state
      = BreakerState.Open)
    ∧ ((applyFailures ⟨"t", 2, 60, 30, BreakerState.Closed, [], none⟩ [0]).state
      = BreakerState.Closed)
    ∧ (CircuitBreaker.record_failure
        ⟨"t", 5, 60, 30, BreakerState.Closed, [0, 50], none⟩ 100
      = CircuitBreaker.record_failure
        ⟨"t", 5, 60, 30, BreakerState.Closed, [50], none⟩ 100) := by
  have h2 := C5_threshold 2 60 30 "t" [0, 1] (by decide) (by simp)
  have h1 := C5_threshold 2 60 30 "t" [0] (by decide) (by simp)
  refine ⟨h2.1.1 rfl, h1.1.2 rfl, ?_⟩
  exact (h2.2 ⟨"t", 5, 60, 30, BreakerState.Closed, [0, 50], none⟩ 100).trans (by rfl)

/-- C1: the cache check precedes the breaker check.  With a positive
per-call TTL and a fresh cache entry, `execute` returns the cached value
with `cache_hit = true`, leaving the breaker untouched and never invoking
`fn` (the result does not depend on `fn` or on the breaker's state, so it
succeeds even when the breaker is Open); on a cache miss with the breaker
open, `execute` fails with `CircuitOpen` and `fn` is never invoked. -/
theorem C1_cache_precedes_breaker {T : Type} (config : ToolConfig)
    (fn : Nat → AttemptOutcome T) (cache : ToolCache (T × Int))
    (breaker : CircuitBreaker) (key : String) (now ttlArg : Int) :
    (∀ v t0, 0 < ttlArg → (cache.get key now).2 = some (v, t0) →
      ToolExecutor.execute config fn false cache breaker key now ttlArg
        = ((cache.get key now).1, breaker, Except.ok
            { value := v
              provenance :=
                { source := "tool", fetched_at := t0, cache_hit := some true } }))
    ∧ (0 < ttlArg → (cache.get key now).2 = none → (breaker.is_open now).2 = true →
      ToolExecutor.execute config fn false cache breaker key now ttlArg
        = ((cache.get key now).1, (breaker.is_open now).1,
            Except.error ExecError.CircuitOpen)) := by
  constructor
  · intro v t0 hpos hhit
    have hne : ttlArg ≠ 0 := by omega
    simp [ToolExecutor.execute, hne, hpos, hhit]
  · intro hpos hmiss hopen
    have hne : ttlArg ≠ 0 := by omega
    simp [ToolExecutor.execute, hne, hpos, hmiss, hopen]

/-- Witness for C1: with the breaker forced Open, a fresh cached entry is
still served with `cache_hit = true` and the breaker is untouched; on a
miss the same Open breaker rejects with `CircuitOpen`. -/
theorem C1_cache_precedes_breaker_witness :
    (ToolExecutor.execute (T := Nat) ⟨0, 4000, 1, 200, 500, 5, 60, 30, 0⟩
        (fun _ => AttemptOutcome.cancelled) false ⟨[("k", ⟨(7, 3), 5, 100⟩)]⟩
        ⟨"t", 5, 60, 30, BreakerState.Open, [0, 1, 2, 3, 4], some 4⟩ "k" 10 100
      = (⟨[("k", ⟨(7, 3), 5, 100⟩)]⟩,
          ⟨"t", 5, 60, 30, BreakerState.Open, [0, 1, 2, 3, 4], some 4⟩,
          Except.ok ⟨7, { source := "tool", fetched_at := 3, cache_hit := some true }⟩))
    ∧ (ToolExecutor.execute (T := Nat) ⟨0, 4000, 1, 200, 500, 5, 60, 30, 0⟩
        (fun _ => AttemptOutcome.cancelled) false ⟨[]⟩
        ⟨"t", 5, 60, 30, BreakerState.Open, [0, 1, 2, 3, 4], some 4⟩ "k" 10 100
      = (⟨[]⟩, ⟨"t", 5, 60, 30, BreakerState.Open, [0, 1, 2, 3, 4], some 4⟩,
          Except.error ExecError.CircuitOpen)) := by
  have h1 := C1_cache_precedes_breaker (T := Nat) ⟨0, 4000, 1, 200, 500, 5, 60, 30, 0⟩
    (fun _ => AttemptOutcome.cancelled) ⟨[("k", ⟨(7, 3), 5, 100⟩)]⟩
    ⟨"t", 5, 60, 30, BreakerState.Open, [0, 1, 2, 3, 4], some 4⟩ "k" 10 100
  have h2 := C1_cache_precedes_breaker (T := Nat) ⟨0, 4000, 1, 200, 500, 5, 60, 30, 0⟩
    (fun _ => AttemptOutcome.cancelled) ⟨[]⟩
    ⟨"t", 5, 60, 30, BreakerState.Open, [0, 1, 2, 3, 4], some 4⟩ "k" 10 100
  constructor
  · exact (h1.1 7 3 (by decide) (by decide)).trans (by rfl)
  · exact (h2.2 (by decide) (by decide) (by decide)).trans (by rfl)

theorem failTimesFrom_congr {T : Type} (fn fn2 : Nat → AttemptOutcome T) :
    ∀ (k attempt : Nat), (∀ j, j < k → fn2 (attempt + j) = fn (attempt + j)) →
      failTimesFrom fn2 attempt k = failTimesFrom fn attempt k := by
  intro k
  induction k with
  | zero => intro attempt _; rfl
  | succ k ih =>
    intro attempt h
    have h0 := h 0 (Nat.succ_pos k)
    rw [Nat.add_zero] at h0
    have htail : failTimesFrom fn2 (attempt + 1) k = failTimesFrom fn (attempt + 1) k := by
      refine ih (attempt + 1) (fun j hj => ?_)
      have := h (j + 1) (by omega)
      have harith : attempt + (j + 1) = attempt + 1 + j := by omega
      rwa [harith] at this
    simp only [failTimesFrom, h0, htail]

theorem failsBelow_congr {T : Type} (fn fn2 : Nat → AttemptOutcome T) :
    ∀ (k attempt : Nat), (∀ j, j < k → fn2 (attempt + j) = fn (attempt + j)) →
      failsBelow fn attempt k → failsBelow fn2 attempt k := by
  intro k
  induction k with
  | zero => intro attempt _ _; trivial
  | succ k ih =>
    intro attempt h hfb
    rcases hfb with ⟨h0, hrest⟩
    have he := h 0 (Nat.succ_pos k)
    rw [Nat.add_zero] at he
    refine ⟨by rw [he]; exact h0, ?_⟩
    refine ih (attempt + 1) (fun j hj => ?_) hrest
    have := h (j + 1) (by omega)
    have harith : attempt + (j + 1) = attempt + 1 + j := by omega
    rwa [harith] at this

theorem applyFailures_ft_congr :
    ∀ (ts : List Int) (b1 b2 : CircuitBreaker),
      b1.failure_times = b2.failure_times → b1.window_seconds = b2.window_seconds →
      (applyFailures b1 ts).failure_times = (applyFailures b2 ts).failure_times := by
  intro ts
  induction ts with
  | nil =>
    intro b1 b2 h _
    simpa [applyFailures] using h
  | cons t rest ih =>
    intro b1 b2 hft hW
    have h1 : (b1.record_failure t).failure_times = (b2.record_failure t).failure_times := by
      rw [record_failure_failure_times, record_failure_failure_times, hft, hW]
    have h2 : (b1.record_failure t).window_seconds = (b2.record_failure t).window_seconds := by
      rw [(record_failure_fields b1 t).1, (record_failure_fields b2 t).1, hW]
    simpa [applyFailures, List.foldl_cons] using ih _ _ h1 h2

/-- If the first `k` attempts fail retryably and attempt `k` raises
cancellation, the loop stops there: the cache is untouched, the breaker
has recorded exactly the `k` failures, and the error is `Cancelled`. -/
theorem runAttempts_cancel {T : Type} (fn : Nat → AttemptOutcome T)
    (key : String) (ttl now : Int) :
    ∀ (k attempt fuel : Nat) (le : Option LastErrorKind) (b : CircuitBreaker)
      (c : ToolCache (T × Int)),
      k < fuel → failsBelow fn attempt k →
      fn (attempt + k) = AttemptOutcome.cancelled →
      runAttempts fn key ttl now attempt fuel le b c
        = (c, applyFailures b (failTimesFrom fn attempt k),
            Except.error ExecError.Cancelled) := by
  intro k
  induction k with
  | zero =>
    intro attempt fuel le b c hk _ hcan
    obtain ⟨fuel, rfl⟩ : ∃ m, fuel = m + 1 := ⟨fuel - 1, by omega⟩
    rw [Nat.add_zero] at hcan
    simp [runAttempts, hcan, failTimesFrom, applyFailures]
  | succ k ih =>
    intro attempt fuel le b c hk hfb hcan
    obtain ⟨fuel, rfl⟩ : ∃ m, fuel = m + 1 := ⟨fuel - 1, by omega⟩
    have hshift : attempt + (k + 1) = attempt + 1 + k := by omega
    rw [hshift] at hcan
    rcases hfb with ⟨h0, hrest⟩
    cases hfn : fn attempt with
    | success v ft => rw [hfn] at h0; simp [AttemptOutcome.failTime] at h0
    | cancelled => rw [hfn] at h0; simp [AttemptOutcome.failTime] at h0
    | timeout t =>
      simp only [runAttempts, hfn, failTimesFrom, AttemptOutcome.failTime,
        Option.getD_some, applyFailures, List.foldl_cons]
      exact ih (attempt + 1) fuel _ (b.record_failure t) c (by omega) hrest hcan
    | failure t =>
      simp only [runAttempts, hfn, failTimesFrom, AttemptOutcome.failTime,
        Option.getD_some, applyFailures, List.foldl_cons]
      exact ih (attempt + 1) fuel _ (b.record_failure t) c (by omega) hrest hcan

/-- If the first `k` attempts fail retryably and attempt `k` succeeds with
value `v` at time `ft`, the loop returns `v` with fresh provenance,
records the `k` failures and then the success, and populates the cache
with `(v, ft)` when the TTL is positive. -/
theorem runAttempts_success {T : Type} (fn : Nat → AttemptOutcome T)
    (key : String) (ttl now : Int) (v : T) (ft : Int) :
    ∀ (k attempt fuel : Nat) (le : Option LastErrorKind) (b : CircuitBreaker)
      (c : ToolCache (T × Int)),
      k < fuel → failsBelow fn attempt k →
      fn (attempt + k) = AttemptOutcome.success v ft →
      runAttempts fn key ttl now attempt fuel le b c
        = (if 0 < ttl then c.set key (v, ft) ttl now else c,
            (applyFailures b (failTimesFrom fn attempt k)).record_success,
            Except.ok
              { value := v
                provenance :=
                  { source := "tool", fetched_at := ft, cache_hit := some false } }) := by
  intro k
  induction k with
  | zero =>
    intro attempt fuel le b c hk _ hsucc
    obtain ⟨fuel, rfl⟩ : ∃ m, fuel = m + 1 := ⟨fuel - 1, by omega⟩
    rw [Nat.add_zero] at hsucc
    simp [runAttempts, hsucc, failTimesFrom, applyFailures]
  | succ k ih =>
    intro attempt fuel le b c hk hfb hsucc
    obtain ⟨fuel, rfl⟩ : ∃ m, fuel = m + 1 := ⟨fuel - 1, by omega⟩
    have hshift : attempt + (k + 1) = attempt + 1 + k := by omega
    rw [hshift] at hsucc
    rcases hfb with ⟨h0, hrest⟩
    cases hfn : fn attempt with
    | success v2 ft2 => rw [hfn] at h0; simp [AttemptOutcome.failTime] at h0
    | cancelled => rw [hfn] at h0; simp [AttemptOutcome.failTime] at h0
    | timeout t =>
      simp only [runAttempts, hfn, failTimesFrom, AttemptOutcome.failTime,
        Option.getD_some, applyFailures, List.foldl_cons]
      exact ih (attempt + 1) fuel _ (b.record_failure t) c (by omega) hrest hsucc
    | failure t =>
      simp only [runAttempts, hfn, failTimesFrom, AttemptOutcome.failTime,
        Option.getD_some, applyFailures, List.foldl_cons]
      exact ih (attempt + 1) fuel _ (b.record_failure t) c (by omega) hrest hsucc

/-- If every one of the `fuel + 1` attempts fails retryably, the loop
exhausts and classifies the raised error by the kind of the LAST
attempt's exception. -/
theorem runAttempts_exhaust {T : Type} (fn : Nat → AttemptOutcome T)
    (key : String) (ttl now : Int) :
    ∀ (fuel attempt : Nat) (le : Option LastErrorKind) (b : CircuitBreaker)
      (c : ToolCache (T × Int)),
      failsBelow fn attempt (fuel + 1) →
      runAttempts fn key ttl now attempt (fuel + 1) le b c
        = (c, applyFailures b (failTimesFrom fn attempt (fuel + 1)),
            Except.error
              (if (fn (attempt + fuel)).isTimeout then ExecError.Timeout
               else ExecError.ExecutionFailed)) := by
  intro fuel
  induction fuel with
  | zero =>
    intro attempt le b c hfb
    rcases hfb with ⟨h0, -⟩
    cases hfn : fn attempt with
    | success v ft => rw [hfn] at h0; simp [AttemptOutcome.failTime] at h0
    | cancelled => rw [hfn] at h0; simp [AttemptOutcome.failTime] at h0
    | timeout t =>
      simp [runAttempts, hfn, failTimesFrom, applyFailures,
        AttemptOutcome.failTime, AttemptOutcome.isTimeout]
    | failure t =>
      simp [runAttempts, hfn, failTimesFrom, applyFailures,
        AttemptOutcome.failTime, AttemptOutcome.isTimeout]
  | succ m ih =>
    intro attempt le b c hfb
    rcases hfb with ⟨h0, hrest⟩
    have hshift : attempt + (m + 1) = attempt + 1 + m := by omega
    cases hfn : fn attempt with
    | success v ft => rw [hfn] at h0; simp [AttemptOutcome.failTime] at h0
    | cancelled => rw [hfn] at h0; simp [AttemptOutcome.failTime] at h0
    | timeout t =>
      simp only [runAttempts, hfn, failTimesFrom, AttemptOutcome.failTime,
        Option.getD_some, applyFailures, List.foldl_cons, hshift]
      exact ih (attempt + 1) (some LastErrorKind.timeoutKind) (b.record_failure t) c hrest
    | failure t =>
      simp only [runAttempts, hfn, failTimesFrom, AttemptOutcome.failTime,
        Option.getD_some, applyFailures, List.foldl_cons, hshift]
      exact ih (attempt + 1) (some LastErrorKind.otherKind) (b.record_failure t) c hrest

/-- On a cache miss with the breaker not open, `execute` reduces to the
attempt loop over the breaker updated by the `is_open` check. -/
theorem execute_reaches_attempts {T : Type} (config : ToolConfig)
    (fn : Nat → AttemptOutcome T) (cache : ToolCache (T × Int))
    (breaker : CircuitBreaker) (key : String) (now ttlArg : Int)
    (hmiss : (cache.get key now).2 = none)
    (hopen : (breaker.is_open now).2 = false) :
    ToolExecutor.execute config fn false cache breaker key now ttlArg
      = runAttempts fn key
          (if ttlArg = 0 then config.cache_ttl_seconds else ttlArg) now
          0 (config.retry_count + 1) none (breaker.is_open now).1
          (if 0 < (if ttlArg = 0 then config.cache_ttl_seconds else ttlArg)
           then (cache.get key now).1 else cache) := by
  by_cases h : 0 < (if ttlArg = 0 then config.cache_ttl_seconds else ttlArg) <;>
    simp [ToolExecutor.execute, hmiss, hopen, h]

/-- C7: cancellation is never a breaker failure and is never retried.
With a pre-set token, `execute` fails `Cancelled` before any cache,
breaker, or attempt work (cache and breaker are returned unchanged and the
result does not depend on `fn`).  When the cancellation is raised from
within attempt `k` (the earlier attempts having failed retryably),
`execute` fails `Cancelled`; the breaker's `failure_times` holds exactly
the failures of those earlier attempts — nothing is recorded for the
cancellation — and no further attempt starts: the result is unchanged
under any change of `fn` beyond attempt `k`. -/
theorem C7_cancellation {T : Type} (config : ToolConfig)
    (fn : Nat → AttemptOutcome T) (cache : ToolCache (T × Int))
    (breaker : CircuitBreaker) (key : String) (now ttlArg : Int) (k : Nat) :
    (ToolExecutor.execute config fn true cache breaker key now ttlArg
      = (cache, breaker, Except.error ExecError.Cancelled))
    ∧ (k ≤ config.retry_count → failsBelow fn 0 k →
       fn k = AttemptOutcome.cancelled →
       (cache.get key now).2 = none → (breaker.is_open now).2 = false →
       (ToolExecutor.execute config fn false cache breaker key now ttlArg).2.2
          = Except.error ExecError.Cancelled
       ∧ (ToolExecutor.execute config fn false cache breaker key now ttlArg).2.1.failure_times
          = (applyFailures breaker (failTimesFrom fn 0 k)).failure_times
       ∧ (∀ fn2 : Nat → AttemptOutcome T, (∀ j, j ≤ k → fn2 j = fn j) →
          ToolExecutor.execute config fn2 false cache breaker key now ttlArg
            = ToolExecutor.execute config fn false cache breaker key now ttlArg)) := by
  constructor
  · simp [ToolExecutor.execute]
  · intro hk hfb hcan hmiss hopen
    have hexec := execute_reaches_attempts config fn cache breaker key now ttlArg hmiss hopen
    have hrun := runAttempts_cancel fn key
      (if ttlArg = 0 then config.cache_ttl_seconds else ttlArg) now k 0
      (config.retry_count + 1) none (breaker.is_open now).1
      (if 0 < (if ttlArg = 0 then config.cache_ttl_seconds else ttlArg)
       then (cache.get key now).1 else cache)
      (by omega) hfb (by simpa using hcan)
    rw [hexec, hrun]
    refine ⟨rfl, ?_, ?_⟩
    · exact applyFailures_ft_congr _ _ _
        (check_and_update_fields breaker now).1
        (check_and_update_fields breaker now).2.1
    · intro fn2 hagree
      have hfb2 : failsBelow fn2 0 k :=
        failsBelow_congr fn fn2 k 0
          (fun j hj => by simpa using hagree j (le_of_lt hj)) hfb
      have hcan2 : fn2 (0 + k) = AttemptOutcome.cancelled := by
        simpa using (hagree k le_rfl).trans hcan
      have hexec2 := execute_reaches_attempts config fn2 cache breaker key now ttlArg hmiss hopen
      have hrun2 := runAttempts_cancel fn2 key
        (if ttlArg = 0 then config.cache_ttl_seconds else ttlArg) now k 0
        (config.retry_count + 1) none (breaker.is_open now).1
        (if 0 < (if ttlArg = 0 then config.cache_ttl_seconds else ttlArg)
         then (cache.get key now).1 else cache)
        (by omega) hfb2 hcan2
      rw [hexec2, hrun2,
        failTimesFrom_congr fn fn2 k 0
          (fun j hj => by simpa using hagree j (le_of_lt hj))]

/-- Witness for C7: a pre-set token cancels before any work; with
`retry_count = 1`, an attempt-0 failure followed by cancellation raised in
attempt 1 yields `Cancelled`, the breaker records only the attempt-0
failure, and changing the unit of work beyond attempt 1 changes nothing. -/
theorem C7_cancellation_witness :
    (ToolExecutor.execute (T := Nat) ⟨0, 4000, 1, 200, 500, 5, 60, 30, 0⟩
        (fun j => if j = 0 then AttemptOutcome.failure 5 else AttemptOutcome.cancelled)
        true ⟨[]⟩ ⟨"t", 5, 60, 30, BreakerState.Closed, [], none⟩ "k" 100 0
      = (⟨[]⟩, ⟨"t", 5, 60, 30, BreakerState.Closed, [], none⟩,
          Except.error ExecError.Cancelled))
    ∧ ((ToolExecutor.execute (T := Nat) ⟨0, 4000, 1, 200, 500, 5, 60, 30, 0⟩
        (fun j => if j = 0 then AttemptOutcome.failure 5 else AttemptOutcome.cancelled)
        false ⟨[]⟩ ⟨"t", 5, 60, 30, BreakerState.Closed, [], none⟩ "k" 100 0).2.2
      = Except.error ExecError.Cancelled)
    ∧ ((ToolExecutor.execute (T := Nat) ⟨0, 4000, 1, 200, 500, 5, 60, 30, 0⟩
        (fun j => if j = 0 then AttemptOutcome.failure 5 else AttemptOutcome.cancelled)
        false ⟨[]⟩ ⟨"t", 5, 60, 30, BreakerState.Closed, [], none⟩ "k" 100 0).2.1.failure_times
      = [5])
    ∧ (ToolExecutor.execute (T := Nat) ⟨0, 4000, 1, 200, 500, 5, 60, 30, 0⟩
        (fun j => if j = 0 then AttemptOutcome.failure 5
                  else if j = 1 then AttemptOutcome.cancelled
                  else AttemptOutcome.success 9 9)
        false ⟨[]⟩ ⟨"t", 5, 60, 30, BreakerState.Closed, [], none⟩ "k" 100 0
      = ToolExecutor.execute ⟨0, 4000, 1, 200, 500, 5, 60, 30, 0⟩
        (fun j => if j = 0 then AttemptOutcome.failure 5 else AttemptOutcome.cancelled)
        false ⟨[]⟩ ⟨"t", 5, 60, 30, BreakerState.Closed, [], none⟩ "k" 100 0) := by
  have h := C7_cancellation (T := Nat) ⟨0, 4000, 1, 200, 500, 5, 60, 30, 0⟩
    (fun j => if j = 0 then AttemptOutcome.failure 5 else AttemptOutcome.cancelled)
    ⟨[]⟩ ⟨"t", 5, 60, 30, BreakerState.Closed, [], none⟩ "k" 100 0 1
  have h2 := h.2 (by decide) ⟨rfl, trivial⟩ rfl rfl (by decide)
  refine ⟨h.1, h2.1, (h2.2.1).trans (by rfl), ?_⟩
  refine h2.2.2 _ (fun j hj => ?_)
  interval_cases j <;> rfl

theorem ToolCache.find_set {T : Type} (c : ToolCache T) (key : String) (v : T)
    (ttl now : Int) : (c.set key v ttl now).find key = some ⟨v, now, ttl⟩ := by
  simp [ToolCache.find, ToolCache.set, List.find?_cons]

/-- C9: provenance correctness.  A fresh success on attempt `k` returns
`cache_hit = false` with `fetched_at` the time the fresh value was
obtained, and (with a positive effective TTL) stores exactly that fetch
time in the cache entry; a cache hit returns `cache_hit = true` with
`fetched_at` the stored original fetch time, not the hit time. -/
theorem C9_provenance {T : Type} (config : ToolConfig)
    (fn : Nat → AttemptOutcome T) (cache : ToolCache (T × Int))
    (breaker : CircuitBreaker) (key : String) (now ttlArg : Int)
    (k : Nat) (v : T) (ft t0 : Int) :
    ((k ≤ config.retry_count → failsBelow fn 0 k →
      fn k = AttemptOutcome.success v ft →
      (cache.get key now).2 = none → (breaker.is_open now).2 = false →
      ((ToolExecutor.execute config fn false cache breaker key now ttlArg).2.2
        = Except.ok
            { value := v
              provenance :=
                { source := "tool", fetched_at := ft, cache_hit := some false } })
      ∧ (0 < (if ttlArg = 0 then config.cache_ttl_seconds else ttlArg) →
          (ToolExecutor.execute config fn false cache breaker key now ttlArg).1.find key
            = some ⟨(v, ft), now, if ttlArg = 0 then config.cache_ttl_seconds else ttlArg⟩))
    ∧ (0 < ttlArg → (cache.get key now).2 = some (v, t0) →
        (ToolExecutor.execute config fn false cache breaker key now ttlArg).2.2
          = Except.ok
              { value := v
                provenance :=
                  { source := "tool", fetched_at := t0, cache_hit := some true } })) := by
  constructor
  · intro hk hfb hsucc hmiss hopen
    rw [execute_reaches_attempts config fn cache breaker key now ttlArg hmiss hopen,
      runAttempts_success fn key
        (if ttlArg = 0 then config.cache_ttl_seconds else ttlArg) now v ft k 0
        (config.retry_count + 1) none (breaker.is_open now).1
        (if 0 < (if ttlArg = 0 then config.cache_ttl_seconds else ttlArg)
         then (cache.get key now).1 else cache)
        (by omega) hfb (by simpa using hsucc)]
    refine ⟨rfl, fun hpos => ?_⟩
    simp only [hpos, if_pos]
    exact ToolCache.find_set _ key (v, ft) _ now
  · intro hpos hhit
    have hne : ttlArg ≠ 0 := by omega
    simp [ToolExecutor.execute, hne, hpos, hhit]

/-- Witness for C9: a fresh success at time 11 carries
`cache_hit = false, fetched_at = 11` and is stored with fetch time 11;
a hit on an entry fetched at 3 and cached at 5 returns
`cache_hit = true, fetched_at = 3` at hit time 10. -/
theorem C9_provenance_witness :
    ((ToolExecutor.execute (T := Nat) ⟨0, 4000, 1, 200, 500, 5, 60, 30, 100⟩
        (fun _ => AttemptOutcome.success 9 11) false ⟨[]⟩
        ⟨"t", 5, 60, 30, BreakerState.Closed, [], none⟩ "k" 10 0).2.2
      = Except.ok ⟨9, { source := "tool", fetched_at := 11, cache_hit := some false }⟩)
    ∧ ((ToolExecutor.execute (T := Nat) ⟨0, 4000, 1, 200, 500, 5, 60, 30, 100⟩
        (fun _ => AttemptOutcome.success 9 11) false ⟨[]⟩
        ⟨"t", 5, 60, 30, BreakerState.Closed, [], none⟩ "k" 10 0).1.find "k"
      = some ⟨(9, 11), 10, 100⟩)
    ∧ ((ToolExecutor.execute (T := Nat) ⟨0, 4000, 1, 200, 500, 5, 60, 30, 0⟩
        (fun _ => AttemptOutcome.success 9 11) false ⟨[("k", ⟨(7, 3), 5, 100⟩)]⟩
        ⟨"t", 5, 60, 30, BreakerState.Closed, [], none⟩ "k" 10 100).2.2
      = Except.ok ⟨7, { source := "tool", fetched_at := 3, cache_hit := some true }⟩) := by
  have hfresh := C9_provenance (T := Nat) ⟨0, 4000, 1, 200, 500, 5, 60, 30, 100⟩
    (fun _ => AttemptOutcome.success 9 11) ⟨[]⟩
    ⟨"t", 5, 60, 30, BreakerState.Closed, [], none⟩ "k" 10 0 0 9 11 0
  have hhit := C9_provenance (T := Nat) ⟨0, 4000, 1, 200, 500, 5, 60, 30, 0⟩
    (fun _ => AttemptOutcome.success 9 11) ⟨[("k", ⟨(7, 3), 5, 100⟩)]⟩
    ⟨"t", 5, 60, 30, BreakerState.Closed, [], none⟩ "k" 10 100 0 7 11 3
  have hf := hfresh.1 (by decide) trivial rfl rfl (by decide)
  refine ⟨hf.1, (hf.2 (by decide)).trans (by rfl), hhit.2 (by decide) (by decide)⟩

/-- C4 counterexample: with one retry, a generic failure on attempt 0
followed by a timeout on attempt 1 makes `execute` raise `Timeout`, even
though not every attempt exceeded the hard timeout (attempt 0 raised a
non-timeout error): the classification looks only at `last_error`. -/
theorem C4_exhaustion_counterexample :
    ((ToolExecutor.execute (T := Nat) ⟨0, 4000, 1, 200, 500, 5, 60, 30, 0⟩
        (fun j => if j = 0 then AttemptOutcome.failure 5 else AttemptOutcome.timeout 6)
        false ⟨[]⟩ ⟨"t", 5, 60, 30, BreakerState.Closed, [], none⟩ "k" 100 0).2.2
      = Except.error ExecError.Timeout)
    ∧ ((fun j =>
        if j = 0 then AttemptOutcome.failure (T := Nat) 5 else AttemptOutcome.timeout 6) 0
      = AttemptOutcome.failure 5) :=
  ⟨rfl, rfl⟩

/-- C4 amended: when `execute` exhausts all `retry_count + 1` attempts
(every attempt failing retryably on a cache miss with the breaker
closed), the raised error is classified by the FINAL attempt alone:
`Timeout` iff the final attempt exceeded the hard timeout, and
`ExecutionFailed` (wrapping the final underlying error) iff the final
attempt raised a non-timeout, non-cancellation error; together with
`Cancelled` and `CircuitOpen` these are mutually exclusive and exhaustive
for a failing call. -/
theorem C4_exhaustion_amended {T : Type} (config : ToolConfig)
    (fn : Nat → AttemptOutcome T) (cache : ToolCache (T × Int))
    (breaker : CircuitBreaker) (key : String) (now ttlArg : Int)
    (hmiss : (cache.get key now).2 = none)
    (hopen : (breaker.is_open now).2 = false)
    (hfails : failsBelow fn 0 (config.retry_count + 1)) :
    (ToolExecutor.execute config fn false cache breaker key now ttlArg).2.2
      = Except.error
          (if (fn config.retry_count).isTimeout then ExecError.Timeout
           else ExecError.ExecutionFailed) := by
  rw [execute_reaches_attempts config fn cache breaker key now ttlArg hmiss hopen,
    runAttempts_exhaust fn key
      (if ttlArg = 0 then config.cache_ttl_seconds else ttlArg) now
      config.retry_count 0 none (breaker.is_open now).1
      (if 0 < (if ttlArg = 0 then config.cache_ttl_seconds else ttlArg)
       then (cache.get key now).1 else cache) hfails]
  simp

/-- Witness for the amended C4: two timeouts yield `Timeout`; a timeout
followed by a generic failure yields `ExecutionFailed`. -/
theorem C4_exhaustion_amended_witness :
    ((ToolExecutor.execute (T := Nat) ⟨0, 4000, 1, 200, 500, 5, 60, 30, 0⟩
        (fun _ => AttemptOutcome.timeout 6)
        false ⟨[]⟩ ⟨"t", 5, 60, 30, BreakerState.Closed, [], none⟩ "k" 100 0).2.2
      = Except.error ExecError.Timeout)
    ∧ ((ToolExecutor.execute (T := Nat) ⟨0, 4000, 1, 200, 500, 5, 60, 30, 0⟩
        (fun j => if j = 0 then AttemptOutcome.timeout 6 else AttemptOutcome.failure 5)
        false ⟨[]⟩ ⟨"t", 5, 60, 30, BreakerState.Closed, [], none⟩ "k" 100 0).2.2
      = Except.error ExecError.ExecutionFailed) := by
  have h1 := C4_exhaustion_amended (T := Nat) ⟨0, 4000, 1, 200, 500, 5, 60, 30, 0⟩
    (fun _ => AttemptOutcome.timeout 6) ⟨[]⟩
    ⟨"t", 5, 60, 30, BreakerState.Closed, [], none⟩ "k" 100 0 rfl (by decide)
    ⟨rfl, rfl, trivial⟩
  have h2 := C4_exhaustion_amended (T := Nat) ⟨0, 4000, 1, 200, 500, 5, 60, 30, 0⟩
    (fun j => if j = 0 then AttemptOutcome.timeout 6 else AttemptOutcome.failure 5) ⟨[]⟩
    ⟨"t", 5, 60, 30, BreakerState.Closed, [], none⟩ "k" 100 0 rfl (by decide)
    ⟨rfl, rfl, trivial⟩
  exact ⟨h1.trans (by rfl), h2.trans (by rfl)⟩
